import Mathlib

/-!
Verification development for the `pkg/config` core of the mysql-backup
repository: a polymorphic destination-configuration resolver.  The Go
source (`pkg/config/type.go`) is shallowly embedded below: YAML documents
become an inductive `Yaml` tree, Go structs become Lean structures, the
custom `Targets.UnmarshalYAML` decoder becomes an explicit recursive
function over entry lists, and Go's `(value, error)` returns become
`Except`/outcome types.  A Go panic (assignment to entry in nil map) is a
distinct outcome constructor, since the decode operation is not total.
-/

set_option autoImplicit false

namespace MysqlBackup

/-! ## YAML document model

A minimal YAML value tree: string scalars and mappings (the only shapes
the configuration decoder in `type.go` inspects).  Mappings are kept as
entry lists in document order, so duplicate keys can be represented. -/

inductive Yaml where
  | str (s : String)
  | map (entries : List (String × Yaml))

/-- Last-occurrence lookup in a YAML mapping's entry list: when the same
key is written twice, the later value is the one a struct decode ends up
assigning (the decoder processes entries in order). -/
def lookupLast {α : Type} (l : List (String × α)) (k : String) : Option α :=
  l.foldl (fun acc p => if p.1 = k then some p.2 else acc) none

/-- Go map insertion on an association list: replace the value at an
existing key in place, otherwise append the new binding.  This is the
semantics of `m[key] = v` on a Go map, with keys kept unique. -/
def mapInsert {α : Type} : List (String × α) → String → α → List (String × α)
  | [], k, v => [(k, v)]
  | (k', v') :: rest, k, v =>
      if k' = k then (k, v) :: rest else (k', v') :: mapInsert rest k v

/-- Decoding a YAML entry list into a Go `map[string]...`: later duplicate
keys overwrite earlier ones (mapping semantics). -/
def goMapOfPairs {α : Type} (l : List (String × α)) : List (String × α) :=
  l.foldl (fun acc p => mapInsert acc p.1 p.2) []

/-- Decoding a YAML node into a Go `string`: only a scalar is accepted. -/
def decodeString : Yaml → Except String String
  | .str s => .ok s
  | .map _ => .error "yaml: cannot unmarshal mapping into string"

/-- Decoding one struct field of type `string` from a mapping's entries:
an absent key leaves the Go zero value `""`; a present key must hold a
scalar. -/
def strField (pairs : List (String × Yaml)) (k : String) : Except String String :=
  match lookupLast pairs k with
  | none => .ok ""
  | some v => decodeString v

/-! ## The target structs of `pkg/config/type.go`

Field names follow the Go source.  The `targetType` and `url` fields are
unexported in Go, so the YAML layer never reads or writes them despite
their tags; the decoder stamps them manually and the encoder omits them. -/

structure AWSCredentials where
  AccessKeyId : String
  SecretAccessKey : String
deriving DecidableEq, Repr

structure S3Target where
  targetType : String
  url : String
  Region : String
  Endpoint : String
  Credentials : AWSCredentials
deriving DecidableEq, Repr

structure SMBCredentials where
  Domain : String
  Username : String
  Password : String
deriving DecidableEq, Repr

structure SMBTarget where
  targetType : String
  url : String
  Credentials : SMBCredentials
deriving DecidableEq, Repr

structure FileTarget where
  targetType : String
  url : String
deriving DecidableEq, Repr

/-- Accessor `S3Target.Type()` from the source. -/
def S3Target.type (s : S3Target) : String := s.targetType

/-- Accessor `S3Target.URL()` from the source. -/
def S3Target.URL (s : S3Target) : String := s.url

/-- Accessor `SMBTarget.Type()` from the source. -/
def SMBTarget.type (s : SMBTarget) : String := s.targetType

/-- Accessor `SMBTarget.URL()` from the source. -/
def SMBTarget.URL (s : SMBTarget) : String := s.url

/-- Accessor `FileTarget.Type()` from the source. -/
def FileTarget.type (f : FileTarget) : String := f.targetType

/-- Accessor `FileTarget.URL()` from the source. -/
def FileTarget.URL (f : FileTarget) : String := f.url

/-- The Go `Target` interface, embedded as the closed sum of its three
implementations (`S3Target`, `SMBTarget`, `FileTarget`). -/
inductive Target where
  | s3 (t : S3Target)
  | smb (t : SMBTarget)
  | file (t : FileTarget)
deriving DecidableEq, Repr

/-- Dynamic dispatch of the interface method `Type()`. -/
def Target.type : Target → String
  | .s3 t => t.type
  | .smb t => t.type
  | .file t => t.type

/-- Dynamic dispatch of the interface method `URL()`. -/
def Target.URL : Target → String
  | .s3 t => t.URL
  | .smb t => t.URL
  | .file t => t.URL

/-- The Go type `Targets = map[string]Target`, as an association list with
unique keys (maintained by `mapInsert`). -/
abbrev Targets := List (String × Target)

/-! ## Per-variant YAML decodes (`yamlTarget.Decode(&...)`) -/

/-- Decoding a YAML node into the `AWSCredentials` struct. -/
def decodeAWSCredentials : Yaml → Except String AWSCredentials
  | .str _ => .error "yaml: cannot unmarshal scalar into struct"
  | .map pairs => do
      let a ← strField pairs "access-key-id"
      let s ← strField pairs "secret-access-key"
      .ok ⟨a, s⟩

/-- Decoding a YAML node into the `SMBCredentials` struct. -/
def decodeSMBCredentials : Yaml → Except String SMBCredentials
  | .str _ => .error "yaml: cannot unmarshal scalar into struct"
  | .map pairs => do
      let d ← strField pairs "domain"
      let u ← strField pairs "username"
      let p ← strField pairs "password"
      .ok ⟨d, u, p⟩

/-- Decoding a YAML node into `S3Target`.  Only the exported fields are
populated; the unexported `targetType`/`url` stay at the zero value and
are stamped afterwards by the decoder. -/
def decodeS3Target : Yaml → Except String S3Target
  | .str _ => .error "yaml: cannot unmarshal scalar into struct"
  | .map pairs => do
      let r ← strField pairs "region"
      let e ← strField pairs "endpoint"
      let c ← match lookupLast pairs "credentials" with
              | none => Except.ok (⟨"", ""⟩ : AWSCredentials)
              | some v => decodeAWSCredentials v
      .ok { targetType := "", url := "", Region := r, Endpoint := e, Credentials := c }

/-- Decoding a YAML node into `SMBTarget` (exported fields only). -/
def decodeSMBTarget : Yaml → Except String SMBTarget
  | .str _ => .error "yaml: cannot unmarshal scalar into struct"
  | .map pairs => do
      let c ← match lookupLast pairs "credentials" with
              | none => Except.ok (⟨"", "", ""⟩ : SMBCredentials)
              | some v => decodeSMBCredentials v
      .ok { targetType := "", url := "", Credentials := c }

/-- Decoding a YAML node into `FileTarget` (it has no exported fields,
but a scalar node still fails the struct decode). -/
def decodeFileTarget : Yaml → Except String FileTarget
  | .str _ => .error "yaml: cannot unmarshal scalar into struct"
  | .map _ => .ok { targetType := "", url := "" }

/-- The probe struct of `Targets.UnmarshalYAML`: anonymous
`struct { Type string; URL string }`. -/
structure TmpT where
  type : String
  url : String
deriving DecidableEq, Repr

/-- First decode of an entry's node into the probe shape (`tmpT`). -/
def decodeTmpT : Yaml → Except String TmpT
  | .str _ => .error "yaml: cannot unmarshal scalar into struct"
  | .map pairs => do
      let t ← strField pairs "type"
      let u ← strField pairs "url"
      .ok ⟨t, u⟩

/-- One loop iteration of `Targets.UnmarshalYAML`, up to the map insert:
probe decode, dispatch on the `type` discriminator, second decode into the
matching variant, stamp of the unexported kind/url fields.  An
unrecognized discriminator yields the `unknown target type` error. -/
def decodeEntry (node : Yaml) : Except String Target := do
  let tmpT ← decodeTmpT node
  match tmpT.type with
  | "s3" => do
      let s3Target ← decodeS3Target node
      .ok (.s3 { s3Target with targetType := tmpT.type, url := tmpT.url })
  | "smb" => do
      let smbTarget ← decodeSMBTarget node
      .ok (.smb { smbTarget with targetType := tmpT.type, url := tmpT.url })
  | "file" => do
      let fileTarget ← decodeFileTarget node
      .ok (.file { fileTarget with targetType := tmpT.type, url := tmpT.url })
  | other => .error ("unknown target type: " ++ other)

/-- Decode of the wrapper struct `tmpTargets` at the start of
`Targets.UnmarshalYAML`: it looks for a `targets` key INSIDE the node the
unmarshaler receives, and decodes its value into `map[string]yaml.Node`.
An absent key leaves the field at its zero value (no entries). -/
def decodeTmpTargets : Yaml → Except String (List (String × Yaml))
  | .str _ => .error "yaml: cannot unmarshal scalar into struct"
  | .map pairs =>
      match lookupLast pairs "targets" with
      | none => .ok []
      | some (.str _) => .error "yaml: cannot unmarshal scalar into map"
      | some (.map tpairs) => .ok (goMapOfPairs tpairs)

/-- Outcome of running `Targets.UnmarshalYAML` on a receiver whose map may
be nil (`none`).  `ok` returns the receiver's final entry list; `err`
returns the Go error together with the receiver's (possibly mutated)
state, since the Go code assigns into the map in place before failing;
`panic` is the Go runtime abort on assignment into a nil map. -/
inductive UnmarshalOutcome where
  | ok (m : Targets)
  | err (msg : String) (receiver : Option Targets)
  | panic (msg : String)
deriving DecidableEq, Repr

/-- The `for key, yamlTarget := range tmpTargets.Targets` loop of
`Targets.UnmarshalYAML`: per entry, decode and dispatch via `decodeEntry`,
then `(*t)[key] = target` — which panics when the receiver map is nil. -/
def unmarshalLoop : Option Targets → List (String × Yaml) → UnmarshalOutcome
  | t, [] => .ok (t.getD [])
  | t, (key, node) :: rest =>
      match decodeEntry node with
      | .error e => .err e t
      | .ok target =>
          match t with
          | none => .panic "assignment to entry in nil map"
          | some m => unmarshalLoop (some (mapInsert m key target)) rest

/-- The whole of `Targets.UnmarshalYAML` from `pkg/config/type.go`:
decode the received node into the `tmpTargets` wrapper, then run the
entry loop. -/
def unmarshalTargets (t : Option Targets) (y : Yaml) : UnmarshalOutcome :=
  match decodeTmpTargets y with
  | .error e => .err e t
  | .ok pairs => unmarshalLoop t pairs

/-! ## Configuration load (spec-modelled envelope around the decoder) -/

/-- Modelled from the spec: the `Configuration` produced by
`loadConfiguration` (spec section 4.3 / 6), trimmed to the targets table —
the only root component any claim references; the scalar envelope fields
and the dump/restore/database blocks are decoded directly with no
polymorphism and are omitted here. -/
structure Configuration where
  targets : Targets
deriving DecidableEq, Repr

/-- Outcome of a whole-document load: a configuration, an error with no
configuration attached, or a propagated runtime panic. -/
inductive LoadOutcome where
  | ok (c : Configuration)
  | err (msg : String)
  | panic (msg : String)
deriving DecidableEq, Repr

/-- Modelled from the spec: `loadConfiguration(document)` (spec sections
4.3 and 6), which is not under `src/`.  It decodes the root mapping and
delegates the `targets` subtree — the value of the root `targets` key, as
the YAML layer hands a field's value node to that field's unmarshaler —
to the in-source `Targets.UnmarshalYAML`, on a freshly zero-valued
`Config` whose `Targets` map is nil.  On a decode error no Configuration
is returned. -/
def loadConfigurationOutcome (y : Yaml) : LoadOutcome :=
  match y with
  | .str _ => .err "yaml: cannot unmarshal scalar into struct"
  | .map pairs =>
      match lookupLast pairs "targets" with
      | none => .ok ⟨[]⟩
      | some v =>
          match unmarshalTargets none v with
          | .ok m => .ok ⟨m⟩
          | .err e _ => .err e
          | .panic msg => .panic msg

/-! ## YAML encoding of a decoded configuration

The Go YAML encoder marshals each `Target`'s dynamic struct.  Unexported
Go fields are skipped by the encoder, so `targetType` and `url` are never
written out; the exported fields carry no `omitempty`, so they are always
written. -/

/-- Encoding of the `AWSCredentials` struct. -/
def marshalAWSCredentials (c : AWSCredentials) : Yaml :=
  .map [("access-key-id", .str c.AccessKeyId),
        ("secret-access-key", .str c.SecretAccessKey)]

/-- Encoding of the `SMBCredentials` struct. -/
def marshalSMBCredentials (c : SMBCredentials) : Yaml :=
  .map [("domain", .str c.Domain), ("username", .str c.Username),
        ("password", .str c.Password)]

/-- Encoding of an `S3Target`: only the exported fields appear; the
unexported `targetType` and `url` are omitted by the Go encoder. -/
def marshalS3Target (s : S3Target) : Yaml :=
  .map [("region", .str s.Region), ("endpoint", .str s.Endpoint),
        ("credentials", marshalAWSCredentials s.Credentials)]

/-- Encoding of an `SMBTarget` (exported fields only). -/
def marshalSMBTarget (s : SMBTarget) : Yaml :=
  .map [("credentials", marshalSMBCredentials s.Credentials)]

/-- Encoding of a `FileTarget`: both its fields are unexported, so it
encodes as an empty mapping. -/
def marshalFileTarget (_ : FileTarget) : Yaml :=
  .map []

/-- Encoding of a `Target` via its dynamic type. -/
def marshalTarget : Target → Yaml
  | .s3 t => marshalS3Target t
  | .smb t => marshalSMBTarget t
  | .file t => marshalFileTarget t

/-- Encoding of a `Configuration` back to the document format: the
targets table is written as a mapping under the root `targets` key. -/
def marshalConfiguration (c : Configuration) : Yaml :=
  .map [("targets", .map (c.targets.map fun p => (p.1, marshalTarget p.2)))]

/-! ## Storage factories (`Storage()` methods)

The URL-parsing collaborator `util.SmartParse` and the backend
constructors live outside `src/`; they are passed in as explicit
parameters (the parse function) and modelled from the spec (the
constructors, section 6: variadic override options over backend
defaults). -/

/-- Modelled from the spec: the opaque result of the URL-parsing
collaborator `parse(url)`. -/
structure ParsedURL where
  raw : String
deriving DecidableEq, Repr

/-- The `s3.Option` values the factory can append. -/
inductive S3Option where
  | withRegion (r : String)
  | withEndpoint (e : String)
  | withAccessKeyId (k : String)
  | withSecretAccessKey (k : String)
deriving DecidableEq, Repr

/-- Modelled from the spec: the backend defaults an object-storage store
starts from before options are applied (e.g. the default endpoint and
ambient credential discovery). -/
structure S3Defaults where
  region : String
  endpoint : String
  accessKeyId : String
  secretAccessKey : String
deriving DecidableEq, Repr

/-- The configured object-storage store produced by the constructor. -/
structure S3Store where
  url : ParsedURL
  region : String
  endpoint : String
  accessKeyId : String
  secretAccessKey : String
deriving DecidableEq, Repr

/-- Application of one override option to a store. -/
def applyS3Option (st : S3Store) : S3Option → S3Store
  | .withRegion r => { st with region := r }
  | .withEndpoint e => { st with endpoint := e }
  | .withAccessKeyId k => { st with accessKeyId := k }
  | .withSecretAccessKey k => { st with secretAccessKey := k }

/-- Modelled from the spec: `newObjectStorage(parsedURL, options...)` —
start from the backend defaults and apply the variadic option set in
order. -/
def s3New (dflt : S3Defaults) (u : ParsedURL) (opts : List S3Option) : S3Store :=
  opts.foldl applyS3Option
    { url := u, region := dflt.region, endpoint := dflt.endpoint,
      accessKeyId := dflt.accessKeyId, secretAccessKey := dflt.secretAccessKey }

/-- The option set built by `S3Target.Storage()`: each optional field is
tested for non-emptiness and appended only when non-empty, exactly as in
the source. -/
def s3Opts (s : S3Target) : List S3Option :=
  let opts : List S3Option := []
  let opts := if s.Region ≠ "" then opts ++ [S3Option.withRegion s.Region] else opts
  let opts := if s.Endpoint ≠ "" then opts ++ [S3Option.withEndpoint s.Endpoint] else opts
  let opts := if s.Credentials.AccessKeyId ≠ "" then
      opts ++ [S3Option.withAccessKeyId s.Credentials.AccessKeyId] else opts
  let opts := if s.Credentials.SecretAccessKey ≠ "" then
      opts ++ [S3Option.withSecretAccessKey s.Credentials.SecretAccessKey] else opts
  opts

/-- The method `S3Target.Storage()`: parse the declared URL (failure is
wrapped as `invalid target url` followed by the cause, mirroring
`fmt.Errorf("invalid target url%v", err)`), then construct the store from
the parsed URL and the accumulated option set. -/
def S3Target.Storage (parse : String → Except String ParsedURL)
    (dflt : S3Defaults) (s : S3Target) : Except String S3Store :=
  match parse s.url with
  | .error e => .error ("invalid target url" ++ e)
  | .ok u => .ok (s3New dflt u (s3Opts s))

/-- The `smb.Option` values the factory can append. -/
inductive SMBOption where
  | withDomain (d : String)
  | withUsername (u : String)
  | withPassword (p : String)
deriving DecidableEq, Repr

/-- Modelled from the spec: the backend defaults for a network-share
store. -/
structure SMBDefaults where
  domain : String
  username : String
  password : String
deriving DecidableEq, Repr

/-- The configured network-share store produced by the constructor. -/
structure SMBStore where
  url : ParsedURL
  domain : String
  username : String
  password : String
deriving DecidableEq, Repr

/-- Application of one override option to a network-share store. -/
def applySMBOption (st : SMBStore) : SMBOption → SMBStore
  | .withDomain d => { st with domain := d }
  | .withUsername u => { st with username := u }
  | .withPassword p => { st with password := p }

/-- Modelled from the spec: `newNetworkShare(parsedURL, options...)`. -/
def smbNew (dflt : SMBDefaults) (u : ParsedURL) (opts : List SMBOption) : SMBStore :=
  opts.foldl applySMBOption
    { url := u, domain := dflt.domain, username := dflt.username,
      password := dflt.password }

/-- The option set built by `SMBTarget.Storage()`. -/
def smbOpts (s : SMBTarget) : List SMBOption :=
  let opts : List SMBOption := []
  let opts := if s.Credentials.Domain ≠ "" then
      opts ++ [SMBOption.withDomain s.Credentials.Domain] else opts
  let opts := if s.Credentials.Username ≠ "" then
      opts ++ [SMBOption.withUsername s.Credentials.Username] else opts
  let opts := if s.Credentials.Password ≠ "" then
      opts ++ [SMBOption.withPassword s.Credentials.Password] else opts
  opts

/-- The method `SMBTarget.Storage()`: same discipline as the s3 one. -/
def SMBTarget.Storage (parse : String → Except String ParsedURL)
    (dflt : SMBDefaults) (s : SMBTarget) : Except String SMBStore :=
  match parse s.url with
  | .error e => .error ("invalid target url" ++ e)
  | .ok u => .ok (smbNew dflt u (smbOpts s))

/-- The empty `credentials.Creds{}` value passed by the file variant. -/
structure Creds where
deriving DecidableEq, Repr

/-- A generic storage handle: the result of resolving any target. -/
inductive StorageHandle where
  | s3 (st : S3Store)
  | smb (st : SMBStore)
  | generic (tag : String)
deriving DecidableEq, Repr

/-- The collaborator bundle a resolve call closes over: the URL parser,
the backend defaults, and the generic by-scheme resolver the file variant
delegates to (`storage.ParseURL`, modelled from the spec as
`resolveByScheme(url, credentials)`). -/
structure Collab where
  smartParse : String → Except String ParsedURL
  s3Defaults : S3Defaults
  smbDefaults : SMBDefaults
  parseURLStore : String → Creds → Except String StorageHandle

/-- The method `FileTarget.Storage()`: delegate to the generic resolver
with empty credentials. -/
def FileTarget.Storage (c : Collab) (f : FileTarget) : Except String StorageHandle :=
  c.parseURLStore f.url {}

/-- Dynamic dispatch of the interface method `Storage()`. -/
def Target.Storage (c : Collab) : Target → Except String StorageHandle
  | .s3 t => (S3Target.Storage c.smartParse c.s3Defaults t).map .s3
  | .smb t => (SMBTarget.Storage c.smartParse c.smbDefaults t).map .smb
  | .file t => FileTarget.Storage c t

/-- Resolving a target by name out of a Targets mapping: look the name up
and invoke its `Storage()` method.  Each call is an independent pure
function of the looked-up target. -/
def resolveName (c : Collab) (m : Targets) (k : String) :
    Option (Except String StorageHandle) :=
  (lookupLast m k).map (Target.Storage c)

/-! ## Well-formedness of stored targets -/

/-- A stored target whose stamped kind agrees with its variant. -/
def wellFormedTarget : Target → Prop
  | .s3 t => t.targetType = "s3"
  | .smb t => t.targetType = "smb"
  | .file t => t.targetType = "file"

instance (t : Target) : Decidable (wellFormedTarget t) := by
  cases t <;> simp only [wellFormedTarget] <;> infer_instance

/-! ## Concrete documents and configurations used by individual claims -/

/-- A well-formed s3 declaration. -/
def c1Decl : Yaml :=
  .map [("type", .str "s3"), ("url", .str "s3://bucket/path")]

/-- A configuration document in the documented shape, declaring one
well-formed s3 target. -/
def docC1 : Yaml :=
  .map [("type", .str "config.databack.io"), ("version", .str "1"),
        ("targets", .map [("t1", c1Decl)])]

/-- A declaration with an unrecognized discriminator. -/
def c2Decl : Yaml :=
  .map [("type", .str "bogus"), ("url", .str "s3://bucket/path")]

/-- A configuration document in the documented shape whose single target
entry has an unrecognized discriminator. -/
def docC2 : Yaml :=
  .map [("type", .str "config.databack.io"), ("version", .str "1"),
        ("targets", .map [("t1", c2Decl)])]

/-- Two declarations for the same target name, differing in their URL. -/
def c6DeclA : Yaml := .map [("type", .str "file"), ("url", .str "/backups/a")]

/-- The later duplicate declaration. -/
def c6DeclB : Yaml := .map [("type", .str "file"), ("url", .str "/backups/b")]

/-- A configuration document whose `targets` mapping declares the name
`t1` twice. -/
def docC6 : Yaml :=
  .map [("targets", .map [("t1", c6DeclA), ("t1", c6DeclB)])]

/-- A decoded configuration holding one s3 target with a region set. -/
def c7Config : Configuration :=
  ⟨[("t1", .s3 ⟨"s3", "s3://bucket/path", "us-east-1", "", ⟨"", ""⟩⟩)]⟩

/-- A node as received by the unmarshaler, holding a `targets` key with
one unrecognized entry followed by one recognized s3 entry. -/
def docC9 : Yaml :=
  .map [("targets", .map [("a", .map [("type", .str "bogus")]),
                          ("b", .map [("type", .str "s3"), ("url", .str "s3://x")])])]

/-- A node as received by the unmarshaler, holding a `targets` key with a
single well-formed s3 entry. -/
def docC9w : Yaml :=
  .map [("targets", .map [("b", .map [("type", .str "s3"), ("url", .str "s3://x")])])]

/-- A name-to-declaration mapping (the documented shape of the `targets`
value) in which one declared target is itself named `targets`. -/
def docC10 : Yaml :=
  .map [("targets", .map [("type", .str "file"), ("url", .str "/backups")])]

/-- Declarations used by the fail-fast claim: a good entry, a bad entry,
and an arbitrary trailing entry. -/
def c5Good : Yaml := .map [("type", .str "file"), ("url", .str "/backups")]

/-- The failing entry of the fail-fast claim (unknown discriminator). -/
def c5Bad : Yaml := .map [("type", .str "bogus")]

/-- The trailing entry of the fail-fast claim. -/
def c5Tail : Yaml := .map [("type", .str "smb"), ("url", .str "smb://h/s")]

/-- A node that makes the unmarshaler err: it wraps a `targets` key whose
single entry has an unrecognized discriminator. -/
def c5Node : Yaml := .map [("targets", .map [("b", c5Bad)])]

/-- A collaborator bundle whose URL parser always fails, used to witness
the invalid-URL claim. -/
def c4Collab : Collab where
  smartParse := fun _ => .error " parse boom"
  s3Defaults := ⟨"us-west-2", "s3.amazonaws.com", "", ""⟩
  smbDefaults := ⟨"", "guest", ""⟩
  parseURLStore := fun u _ => .ok (.generic u)

/-- An s3 target with an unparseable URL. -/
def c4S3 : S3Target := ⟨"s3", "::bad::", "", "", ⟨"", ""⟩⟩

/-- An smb target with an unparseable URL. -/
def c4SMB : SMBTarget := ⟨"smb", "::bad::", ⟨"", "", ""⟩⟩

/-- A collaborator bundle whose URL parser always succeeds, used to
witness the option-composition claim. -/
def c3Collab : Collab where
  smartParse := fun u => .ok ⟨u⟩
  s3Defaults := ⟨"us-west-2", "s3.amazonaws.com", "AKdefault", "SKdefault"⟩
  smbDefaults := ⟨"WORKGROUP", "guest", ""⟩
  parseURLStore := fun u _ => .ok (.generic u)

/-- An s3 target declaring a region but no endpoint and no credentials. -/
def c3S3 : S3Target := ⟨"s3", "s3://bucket/path", "us-east-1", "", ⟨"", ""⟩⟩

/-! ## Helper lemmas -/

/-- A fold looking for a key finds nothing when no entry has that key. -/
theorem lookupLast_eq_none {α : Type} (l : List (String × α)) (k : String)
    (h : ∀ p ∈ l, p.1 ≠ k) : lookupLast l k = none := by
  have aux : ∀ (l' : List (String × α)) (acc : Option α),
      (∀ p ∈ l', p.1 ≠ k) →
      l'.foldl (fun acc p => if p.1 = k then some p.2 else acc) acc = acc := by
    intro l'
    induction l' with
    | nil => intro acc _; rfl
    | cons p rest ih =>
        intro acc hall
        rw [List.foldl_cons, if_neg (hall p (List.mem_cons_self p rest))]
        exact ih acc fun q hq => hall q (List.mem_cons_of_mem p hq)
  exact aux l none h

/-- An entry accepted by the per-entry decode carries a stamped kind that
matches its variant. -/
theorem decodeEntry_wellFormed (node : Yaml) (tgt : Target)
    (h : decodeEntry node = .ok tgt) : wellFormedTarget tgt := by
  unfold decodeEntry at h
  cases htmp : decodeTmpT node with
  | error e => rw [htmp] at h; exact absurd h (by simp [Bind.bind, Except.bind])
  | ok tmpT =>
      rw [htmp] at h
      simp only [Bind.bind, Except.bind] at h
      split at h
      · cases hs : decodeS3Target node with
        | error e => rw [hs] at h; exact absurd h (by simp)
        | ok s =>
            rw [hs] at h
            simp only [Except.ok.injEq] at h
            subst h
            simpa [wellFormedTarget] using by assumption
      · cases hs : decodeSMBTarget node with
        | error e => rw [hs] at h; exact absurd h (by simp)
        | ok s =>
            rw [hs] at h
            simp only [Except.ok.injEq] at h
            subst h
            simpa [wellFormedTarget] using by assumption
      · cases hs : decodeFileTarget node with
        | error e => rw [hs] at h; exact absurd h (by simp)
        | ok s =>
            rw [hs] at h
            simp only [Except.ok.injEq] at h
            subst h
            simpa [wellFormedTarget] using by assumption
      · exact absurd h (by simp)

/-- Go map insertion preserves a pointwise property of the entries. -/
theorem mapInsert_forall {α : Type} (P : String × α → Prop) :
    ∀ (m : List (String × α)) (k : String) (v : α),
      (∀ p ∈ m, P p) → P (k, v) → ∀ p ∈ mapInsert m k v, P p := by
  intro m
  induction m with
  | nil =>
      intro k v _ hkv p hp
      simp only [mapInsert, List.mem_singleton] at hp
      subst hp; exact hkv
  | cons q rest ih =>
      intro k v hall hkv p hp
      obtain ⟨k1, v1⟩ := q
      simp only [mapInsert] at hp
      by_cases hq : k1 = k
      · rw [if_pos hq] at hp
        rcases List.mem_cons.mp hp with h | h
        · subst h; exact hkv
        · exact hall _ (List.mem_cons_of_mem _ h)
      · rw [if_neg hq] at hp
        rcases List.mem_cons.mp hp with h | h
        · subst h; exact hall _ (List.mem_cons_self _ _)
        · exact ih k v (fun r hr => hall r (List.mem_cons_of_mem _ hr)) hkv _ h

/-- The decode loop, run on a non-nil receiver whose entries are all
well-formed, only ever returns well-formed entries. -/
theorem unmarshalLoop_wf :
    ∀ (pairs : List (String × Yaml)) (m out : Targets),
      (∀ p ∈ m, wellFormedTarget p.2) →
      unmarshalLoop (some m) pairs = .ok out →
      ∀ p ∈ out, wellFormedTarget p.2 := by
  intro pairs
  induction pairs with
  | nil =>
      intro m out hm h
      simp only [unmarshalLoop, Option.getD_some, UnmarshalOutcome.ok.injEq] at h
      subst h; exact hm
  | cons q rest ih =>
      intro m out hm h
      obtain ⟨k, node⟩ := q
      simp only [unmarshalLoop] at h
      cases hd : decodeEntry node with
      | error e => rw [hd] at h; exact absurd h (by simp)
      | ok tgt =>
          rw [hd] at h
          exact ih (mapInsert m k tgt) out
            (mapInsert_forall _ m k tgt hm (decodeEntry_wellFormed node tgt hd)) h

/-- A well-formed stored target's `Type()` value is one of the three
recognized discriminators. -/
theorem wellFormedTarget_type (t : Target) (h : wellFormedTarget t) :
    t.type = "s3" ∨ t.type = "smb" ∨ t.type = "file" := by
  cases t with
  | s3 s => exact Or.inl h
  | smb s => exact Or.inr (Or.inl h)
  | file f => exact Or.inr (Or.inr h)

/-- When the decode loop meets its first failing entry it stops: the
result is that entry's error (with the receiver's entries so far), and
everything after the failing entry is never examined. -/
theorem unmarshalLoop_halts :
    ∀ (good : List (String × Yaml)) (m0 : Targets) (k : String) (node : Yaml)
      (rest1 rest2 : List (String × Yaml)) (e : String),
      (∀ p ∈ good, ∃ tgt, decodeEntry p.2 = Except.ok tgt) →
      decodeEntry node = .error e →
      (∃ mp, unmarshalLoop (some m0) (good ++ (k, node) :: rest1) = .err e (some mp)) ∧
      unmarshalLoop (some m0) (good ++ (k, node) :: rest1)
        = unmarshalLoop (some m0) (good ++ (k, node) :: rest2) := by
  intro good
  induction good with
  | nil =>
      intro m0 k node rest1 rest2 e _ hbad
      constructor
      · exact ⟨m0, by simp [unmarshalLoop, hbad]⟩
      · simp [unmarshalLoop, hbad]
  | cons q gr ih =>
      intro m0 k node rest1 rest2 e hgood hbad
      obtain ⟨kq, nq⟩ := q
      obtain ⟨tgt, htgt⟩ := hgood (kq, nq) (List.mem_cons_self _ _)
      simp only [List.cons_append, unmarshalLoop, htgt]
      exact ih (mapInsert m0 kq tgt) k node rest1 rest2 e
        (fun r hr => hgood r (List.mem_cons_of_mem _ hr)) hbad

/-! ## Claims -/

/-- C1: the spec promises that for every configuration document with a
well-formed target declaration whose discriminator is `s3`, `smb` or
`file`, loading succeeds and the resulting Target's `Type()` and `URL()`
return the declared discriminator and URL.  The code breaks this: the
unmarshaler receives the value of the root `targets` key, looks for a
nested `targets` key inside it, finds none, and succeeds with an empty
mapping — the declaration (which `decodeEntry` would accept, second
conjunct) is silently dropped and no Target is produced. -/
theorem c1_target_silently_dropped :
    loadConfigurationOutcome docC1 = .ok ⟨[]⟩ ∧
    decodeEntry c1Decl = .ok (.s3 ⟨"s3", "s3://bucket/path", "", "", ⟨"", ""⟩⟩) :=
  ⟨rfl, rfl⟩

/-- C2: the spec promises that a discriminator outside {s3, smb, file}
makes the load fail with an `unknown target type` error naming the
offending string.  The code breaks this at the document level: the entry
is never inspected (same wrapper slip as C1), so the load succeeds with
an empty mapping — even though the dispatch itself (second conjunct)
would produce exactly that error. -/
theorem c2_unknown_type_not_rejected :
    loadConfigurationOutcome docC2 = .ok ⟨[]⟩ ∧
    decodeEntry c2Decl = .error "unknown target type: bogus" :=
  ⟨rfl, rfl⟩

/-- C3: resolving an s3 or smb target builds its option set so that
exactly the optional fields holding a non-empty string contribute an
override option (first two conjuncts characterize membership); in
particular an s3 target with a region but no endpoint resolves to a store
whose endpoint is the backend default and whose region is the override. -/
theorem c3_option_overrides :
    (∀ s : S3Target,
      (∀ r, S3Option.withRegion r ∈ s3Opts s ↔ s.Region ≠ "" ∧ r = s.Region) ∧
      (∀ e, S3Option.withEndpoint e ∈ s3Opts s ↔ s.Endpoint ≠ "" ∧ e = s.Endpoint) ∧
      (∀ k, S3Option.withAccessKeyId k ∈ s3Opts s ↔
        s.Credentials.AccessKeyId ≠ "" ∧ k = s.Credentials.AccessKeyId) ∧
      (∀ k, S3Option.withSecretAccessKey k ∈ s3Opts s ↔
        s.Credentials.SecretAccessKey ≠ "" ∧ k = s.Credentials.SecretAccessKey)) ∧
    (∀ t : SMBTarget,
      (∀ d, SMBOption.withDomain d ∈ smbOpts t ↔
        t.Credentials.Domain ≠ "" ∧ d = t.Credentials.Domain) ∧
      (∀ u, SMBOption.withUsername u ∈ smbOpts t ↔
        t.Credentials.Username ≠ "" ∧ u = t.Credentials.Username) ∧
      (∀ p, SMBOption.withPassword p ∈ smbOpts t ↔
        t.Credentials.Password ≠ "" ∧ p = t.Credentials.Password)) ∧
    (∀ (parse : String → Except String ParsedURL) (dflt : S3Defaults)
       (s : S3Target) (u : ParsedURL),
      s.Region ≠ "" → s.Endpoint = "" → parse s.url = .ok u →
      S3Target.Storage parse dflt s = .ok (s3New dflt u (s3Opts s)) ∧
      (s3New dflt u (s3Opts s)).endpoint = dflt.endpoint ∧
      (s3New dflt u (s3Opts s)).region = s.Region) := by
  refine ⟨?_, ?_, ?_⟩
  · intro s
    refine ⟨?_, ?_, ?_, ?_⟩ <;> intro x <;> simp only [s3Opts] <;> split_ifs <;> simp_all
  · intro t
    refine ⟨?_, ?_, ?_⟩ <;> intro x <;> simp only [smbOpts] <;> split_ifs <;> simp_all
  · intro parse dflt s u hR hE hparse
    refine ⟨by simp [S3Target.Storage, hparse], ?_, ?_⟩ <;>
      by_cases hA : s.Credentials.AccessKeyId = "" <;>
      by_cases hS : s.Credentials.SecretAccessKey = "" <;>
      simp [s3Opts, s3New, applyS3Option, hR, hE, hA, hS]

/-- Witness for C3 at a concrete target: region set, endpoint absent. -/
theorem c3_option_overrides_witness :
    (S3Option.withRegion "us-east-1" ∈ s3Opts c3S3 ↔
      c3S3.Region ≠ "" ∧ "us-east-1" = c3S3.Region) ∧
    (S3Target.Storage c3Collab.smartParse c3Collab.s3Defaults c3S3
      = .ok (s3New c3Collab.s3Defaults ⟨"s3://bucket/path"⟩ (s3Opts c3S3)) ∧
     (s3New c3Collab.s3Defaults ⟨"s3://bucket/path"⟩ (s3Opts c3S3)).endpoint
      = c3Collab.s3Defaults.endpoint ∧
     (s3New c3Collab.s3Defaults ⟨"s3://bucket/path"⟩ (s3Opts c3S3)).region
      = c3S3.Region) ∧
    s3Opts c3S3 = [S3Option.withRegion "us-east-1"] :=
  ⟨(c3_option_overrides.1 c3S3).1 "us-east-1",
   c3_option_overrides.2.2 c3Collab.smartParse c3Collab.s3Defaults c3S3
     ⟨"s3://bucket/path"⟩ (by decide) rfl rfl,
   rfl⟩

/-- C4: when the declared URL of an s3 or smb target fails parsing, the
resolve call returns no handle but an error whose message is `invalid
target url` followed by the underlying cause; and resolution of a name
depends only on that name's entry, so one target's failure cannot affect
any other target in the mapping. -/
theorem c4_invalid_url :
    ∀ (c : Collab) (e : String),
      (∀ s : S3Target, c.smartParse s.url = .error e →
        S3Target.Storage c.smartParse c.s3Defaults s
          = .error ("invalid target url" ++ e)) ∧
      (∀ s : SMBTarget, c.smartParse s.url = .error e →
        SMBTarget.Storage c.smartParse c.smbDefaults s
          = .error ("invalid target url" ++ e)) ∧
      (∀ (m m' : Targets) (k : String), lookupLast m k = lookupLast m' k →
        resolveName c m k = resolveName c m' k) := by
  intro c e
  refine ⟨?_, ?_, ?_⟩
  · intro s h; simp [S3Target.Storage, h]
  · intro s h; simp [SMBTarget.Storage, h]
  · intro m m' k h; simp [resolveName, h]

/-- Witness for C4: a parser that fails produces the wrapped error on
both variants, and resolving a name is unchanged by unrelated entries. -/
theorem c4_invalid_url_witness :
    S3Target.Storage c4Collab.smartParse c4Collab.s3Defaults c4S3
      = .error "invalid target url parse boom" ∧
    SMBTarget.Storage c4Collab.smartParse c4Collab.smbDefaults c4SMB
      = .error "invalid target url parse boom" ∧
    resolveName c4Collab [("a", .s3 c4S3)] "a"
      = resolveName c4Collab [("b", .file ⟨"file", "/x"⟩), ("a", .s3 c4S3)] "a" :=
  ⟨(c4_invalid_url c4Collab " parse boom").1 c4S3 rfl,
   (c4_invalid_url c4Collab " parse boom").2.1 c4SMB rfl,
   (c4_invalid_url c4Collab " parse boom").2.2
     [("a", .s3 c4S3)] [("b", .file ⟨"file", "/x"⟩), ("a", .s3 c4S3)] "a" rfl⟩

/-- C5: the decoder halts on the first decode or dispatch error — the
entries after the failing one are never examined and the outcome is that
first error (first conjunct) — and a load whose targets decode errs
yields an error only, with no partial Configuration (second conjunct). -/
theorem c5_fail_fast :
    (∀ (m0 : Targets) (good : List (String × Yaml)) (k : String) (node : Yaml)
       (rest1 rest2 : List (String × Yaml)) (e : String),
       (∀ p ∈ good, ∃ tgt, decodeEntry p.2 = Except.ok tgt) →
       decodeEntry node = .error e →
       (∃ mp, unmarshalLoop (some m0) (good ++ (k, node) :: rest1) = .err e (some mp)) ∧
       unmarshalLoop (some m0) (good ++ (k, node) :: rest1)
         = unmarshalLoop (some m0) (good ++ (k, node) :: rest2)) ∧
    (∀ (pairs : List (String × Yaml)) (v : Yaml) (e : String) (t' : Option Targets),
       lookupLast pairs "targets" = some v →
       unmarshalTargets none v = .err e t' →
       loadConfigurationOutcome (.map pairs) = .err e) := by
  constructor
  · exact fun m0 good k node r1 r2 e hg hb =>
      unmarshalLoop_halts good m0 k node r1 r2 e hg hb
  · intro pairs v e t' hv hu
    simp [loadConfigurationOutcome, hv, hu]

/-- Witness for C5 at a concrete run: one good entry, a failing entry,
an arbitrary suffix. -/
theorem c5_fail_fast_witness :
    ((∃ mp, unmarshalLoop (some []) ([("g", c5Good)] ++ ("b", c5Bad) :: [("z", c5Tail)])
        = .err "unknown target type: bogus" (some mp)) ∧
     unmarshalLoop (some []) ([("g", c5Good)] ++ ("b", c5Bad) :: [("z", c5Tail)])
       = unmarshalLoop (some []) ([("g", c5Good)] ++ ("b", c5Bad) :: [])) ∧
    loadConfigurationOutcome (.map [("targets", c5Node)])
      = .err "unknown target type: bogus" :=
  ⟨c5_fail_fast.1 [] [("g", c5Good)] "b" c5Bad [("z", c5Tail)] []
     "unknown target type: bogus"
     (fun p hp => by
       simp only [List.mem_singleton] at hp
       subst hp
       exact ⟨Target.file ⟨"file", "/backups"⟩, rfl⟩)
     rfl,
   c5_fail_fast.2 [("targets", c5Node)] c5Node "unknown target type: bogus" none
     rfl rfl⟩

/-- C6: the spec promises that two `targets` entries sharing a name decode
successfully with the later entry winning.  At the document level the
code instead drops both (first conjunct, the wrapper slip of C1); the
last-write-wins behavior only appears when the decoder is handed a node
that itself wraps a `targets` key (second conjunct). -/
theorem c6_duplicate_dropped :
    loadConfigurationOutcome docC6 = .ok ⟨[]⟩ ∧
    unmarshalTargets (some []) (.map [("targets", .map [("t1", c6DeclA), ("t1", c6DeclB)])])
      = .ok [("t1", .file ⟨"file", "/backups/b"⟩)] :=
  ⟨rfl, rfl⟩

/-- C7: the spec promises an encode/decode round trip preserving every
target's kind, URL and optional fields.  The code cannot: the kind and
URL live in unexported fields the Go encoder omits, so re-decoding the
encoded document yields an empty mapping (first conjunct) although the
original had a target (second conjunct); fed directly to the dispatch,
the re-encoded entry has an empty discriminator and is rejected (third
conjunct). -/
theorem c7_roundtrip_broken :
    loadConfigurationOutcome (marshalConfiguration c7Config) = .ok ⟨[]⟩ ∧
    c7Config.targets ≠ [] ∧
    decodeEntry (marshalTarget (.s3 ⟨"s3", "s3://bucket/path", "us-east-1", "", ⟨"", ""⟩⟩))
      = .error "unknown target type: " :=
  ⟨rfl, by decide, rfl⟩

/-- C8: in every Targets mapping produced by a successful decode (from a
receiver holding only well-formed entries, as a fresh decode does), every
stored target is a recognized variant whose stamped kind matches the
variant, and its `Type()` value is one of `s3`, `smb`, `file`. -/
theorem c8_recognized_variants :
    ∀ (t0 : Option Targets) (y : Yaml) (m : Targets),
      (∀ p ∈ t0.getD [], wellFormedTarget p.2) →
      unmarshalTargets t0 y = .ok m →
      ∀ p ∈ m, wellFormedTarget p.2 ∧
        (p.2.type = "s3" ∨ p.2.type = "smb" ∨ p.2.type = "file") := by
  intro t0 y m h0 h
  have hwf : ∀ q ∈ m, wellFormedTarget q.2 := by
    unfold unmarshalTargets at h
    cases hd : decodeTmpTargets y with
    | error e => rw [hd] at h; exact absurd h (by simp)
    | ok pairs =>
        rw [hd] at h
        cases t0 with
        | none =>
            cases pairs with
            | nil =>
                simp only [unmarshalLoop, Option.getD_none, UnmarshalOutcome.ok.injEq] at h
                subst h
                intro q hq
                exact absurd hq (List.not_mem_nil q)
            | cons q rest =>
                obtain ⟨k, node⟩ := q
                simp only [unmarshalLoop] at h
                cases hde : decodeEntry node with
                | error e => rw [hde] at h; exact absurd h (by simp)
                | ok tgt => rw [hde] at h; exact absurd h (by simp)
        | some m0 => exact unmarshalLoop_wf pairs m0 m h0 h
  exact fun p hp => ⟨hwf p hp, wellFormedTarget_type p.2 (hwf p hp)⟩

/-- Witness for C8 at a concrete decode producing one s3 entry. -/
theorem c8_recognized_variants_witness :
    wellFormedTarget (Target.s3 ⟨"s3", "s3://x", "", "", ⟨"", ""⟩⟩) ∧
    ((Target.s3 ⟨"s3", "s3://x", "", "", ⟨"", ""⟩⟩).type = "s3" ∨
     (Target.s3 ⟨"s3", "s3://x", "", "", ⟨"", ""⟩⟩).type = "smb" ∨
     (Target.s3 ⟨"s3", "s3://x", "", "", ⟨"", ""⟩⟩).type = "file") :=
  c8_recognized_variants (some [])
    (.map [("targets", .map [("t1", .map [("type", .str "s3"), ("url", .str "s3://x")])])])
    [("t1", Target.s3 ⟨"s3", "s3://x", "", "", ⟨"", ""⟩⟩)]
    (fun p hp => absurd hp (List.not_mem_nil p))
    rfl
    ("t1", Target.s3 ⟨"s3", "s3://x", "", "", ⟨"", ""⟩⟩)
    (List.mem_singleton.mpr rfl)

/-- C9 counterexample: the claim says every input with at least one
recognized target entry makes the nil-receiver unmarshal panic; but when
an entry with an unrecognized type is processed first, the unmarshaler
returns that error instead of panicking, even though a recognized entry
is present. -/
theorem c9_counterexample :
    unmarshalTargets none docC9 = .err "unknown target type: bogus" none ∧
    unmarshalTargets none docC9 ≠ .panic "assignment to entry in nil map" :=
  ⟨rfl, by decide⟩

/-- C9 (amended): on an input whose `targets` mapping is non-empty and
all of whose entries decode to recognized variants, invoking the
unmarshaler on a nil receiver map returns no error but aborts with the
nil-map assignment panic — the decode is not total. -/
theorem c9_nil_map_panic :
    ∀ (y : Yaml) (entries : List (String × Yaml)),
      decodeTmpTargets y = .ok entries →
      entries ≠ [] →
      (∀ p ∈ entries, ∃ tgt, decodeEntry p.2 = Except.ok tgt) →
      unmarshalTargets none y = .panic "assignment to entry in nil map" := by
  intro y entries h1 h2 h3
  unfold unmarshalTargets
  rw [h1]
  cases entries with
  | nil => exact absurd rfl h2
  | cons q rest =>
      obtain ⟨k, node⟩ := q
      obtain ⟨tgt, htgt⟩ := h3 (k, node) (List.mem_cons_self _ _)
      simp [unmarshalLoop, htgt]

/-- Witness for C9 at a concrete document with one well-formed s3
entry. -/
theorem c9_nil_map_panic_witness :
    unmarshalTargets none docC9w = .panic "assignment to entry in nil map" :=
  c9_nil_map_panic docC9w
    [("b", .map [("type", .str "s3"), ("url", .str "s3://x")])]
    rfl
    (List.cons_ne_nil _ _)
    (fun p hp => by
      simp only [List.mem_singleton] at hp
      subst hp
      exact ⟨Target.s3 ⟨"s3", "s3://x", "", "", ⟨"", ""⟩⟩, rfl⟩)

/-- C10 counterexample: the claim says every documented-shape `targets`
value (a name-to-declaration mapping) makes the unmarshaler succeed with
an empty mapping; but when a declared target is itself named `targets`,
the wrapper finds that key, treats the declaration as the targets map,
and fails decoding its scalar fields instead of succeeding. -/
theorem c10_counterexample :
    unmarshalTargets none docC10 = .err "yaml: cannot unmarshal scalar into struct" none ∧
    unmarshalTargets none docC10 ≠ .ok [] :=
  ⟨rfl, by decide⟩

/-- C10 (amended): on every node that is a mapping with no `targets` key
— in particular the documented name-to-declaration shape whenever no
target is named `targets` — the unmarshaler iterates over zero entries
and returns success with the receiver unchanged: declared targets are
silently dropped and never inspected. -/
theorem c10_silent_drop :
    ∀ (pairs : List (String × Yaml)) (t : Option Targets),
      (∀ p ∈ pairs, p.1 ≠ "targets") →
      unmarshalTargets t (.map pairs) = .ok (t.getD []) := by
  intro pairs t h
  have hnone := lookupLast_eq_none pairs "targets" h
  have hdec : decodeTmpTargets (.map pairs) = .ok [] := by
    simp only [decodeTmpTargets, hnone]
  unfold unmarshalTargets
  rw [hdec]
  cases t <;> rfl

/-- Witness for C10: a well-formed s3 declaration under the name `t1` is
silently dropped. -/
theorem c10_silent_drop_witness :
    unmarshalTargets none
      (.map [("t1", .map [("type", .str "s3"), ("url", .str "s3://bucket/path")])])
      = .ok [] :=
  c10_silent_drop
    [("t1", .map [("type", .str "s3"), ("url", .str "s3://bucket/path")])] none
    (fun p hp => by
      simp only [List.mem_singleton] at hp
      subst hp
      decide)

end MysqlBackup
